import Mathlib

/-!
# Verification of the mirrorselect mirror-selection core

This file embeds the mirror evaluation and ranking engine of the
mirrorselect repository in Lean 4 and proves properties stated in its
specification.

The repository sources available here are `mirrorselect/main.py` (the
`MirrorSelect` driver class) and `setup.py`.  The probing/ranking
selectors (`Deep`, `Shallow`, `Interactive`) live in a module that is
not among the available sources; definitions for those components are
modelled from the specification text (each such definition says so in
its doc comment).  Definitions embedding `main.py` cite the lines they
embed.
-/

namespace Mirrorselect

/-- Modelled from the spec: the probe status taxonomy of §3/§7
(`Success | Timeout | Unreachable | Error(reason)`); the selectors
module that realises it is not among the available sources. -/
inductive Status where
  | Success : Status
  | Timeout : Status
  | Unreachable : Status
  | Error : String → Status
deriving DecidableEq

/-- Returns true exactly on `Status.Success`. -/
def Status.isSuccess : Status → Bool
  | Status.Success => true
  | _ => false

/-- Modelled from the spec: a `ProbeResult` (§3) — one record per probed
candidate, carrying the candidate's URL, the strategy's numeric metric,
and the probe status.  The selectors module is not among the available
sources. -/
structure ProbeResult where
  url : String
  metric : Int
  status : Status
deriving DecidableEq

/-- Modelled from the spec: the strategy's metric direction (§4.3) —
ascending for latency-like metrics, descending for throughput-like
metrics. -/
inductive Direction where
  | ascending : Direction
  | descending : Direction
deriving DecidableEq

/-- Lexicographic less-or-equal on character lists, comparing code
points position by position.  This is the comparison Python applies to
strings (`sorted`, `<`, `<=` on `str` compare code points
lexicographically), written by plain structural recursion so that it
evaluates inside the kernel. -/
def listLE : List Char → List Char → Bool
  | [], _ => true
  | _ :: _, [] => false
  | a :: as, b :: bs =>
      if a < b then true
      else if b < a then false
      else listLE as bs

/-- Python's string less-or-equal: lexicographic code-point comparison
of the two strings' characters. -/
def strLE (a b : String) : Bool := listLE a.toList b.toList

/-- Modelled from the spec: the ranking order of §4.3 — compare by
metric in the strategy's direction, breaking exact metric ties by
ascending URL string comparison. -/
def RankLE (dir : Direction) (a b : ProbeResult) : Prop :=
  match dir with
  | Direction.ascending =>
      a.metric < b.metric ∨ (a.metric = b.metric ∧ strLE a.url b.url = true)
  | Direction.descending =>
      b.metric < a.metric ∨ (a.metric = b.metric ∧ strLE a.url b.url = true)

instance (dir : Direction) : DecidableRel (RankLE dir) := fun a b =>
  match dir with
  | Direction.ascending =>
      inferInstanceAs (Decidable
        (a.metric < b.metric ∨ (a.metric = b.metric ∧ strLE a.url b.url = true)))
  | Direction.descending =>
      inferInstanceAs (Decidable
        (b.metric < a.metric ∨ (a.metric = b.metric ∧ strLE a.url b.url = true)))

/-- Modelled from the spec: the Ranker/Selector contract of §4.3 —
filter the probe results to Success status, sort by metric in the
strategy's direction with exact metric ties broken by ascending URL
comparison, and truncate to the first `count` entries (return the full
ranked list when `count` is unspecified).  The selectors module that
realises this is not among the available sources. -/
def select (results : List ProbeResult) (dir : Direction)
    (count : Option Nat) : List ProbeResult :=
  let ranked := List.insertionSort (RankLE dir)
    (results.filter (fun r => r.status.isSuccess))
  match count with
  | none => ranked
  | some n => ranked.take n

/-- The five-candidate example of the spec's end-to-end property
(§8): three candidates succeed with throughput metrics 10, 30 and 20,
two fail. -/
def exampleResults : List ProbeResult :=
  [⟨"http://a.example", 10, Status.Success⟩,
   ⟨"http://b.example", 0, Status.Timeout⟩,
   ⟨"http://c.example", 30, Status.Success⟩,
   ⟨"http://d.example", 0, Status.Unreachable⟩,
   ⟨"http://e.example", 20, Status.Success⟩]

/-- Modelled from the spec: fuel-driven worker for the ShallowProbe
block partition of §4.1 (the fuel is the remaining list length, enough
because every step consumes at least one candidate). -/
def blocksGo {α : Type} (bs : Nat) : Nat → List α → List (List α)
  | _, [] => []
  | 0, h :: t => [h :: t]
  | fuel + 1, h :: t =>
      if bs = 0 then [h :: t]
      else (h :: t).take bs :: blocksGo bs fuel ((h :: t).drop bs)

/-- Modelled from the spec: the sub-batch partition of §4.1 — the
candidate batch split into sequential blocks of at most `bs`
candidates (a block size of zero means no splitting); one external
oracle call is issued per block.  The selectors module that realises
this is not among the available sources. -/
def blocks {α : Type} (bs : Nat) (hosts : List α) : List (List α) :=
  blocksGo bs hosts.length hosts

/-- Modelled from the spec: fuel-driven worker for `shallowProbe`,
mirroring the recursion of `blocksGo`. -/
def shallowGo {α : Type} (oracle : List α → List α) (bs : Nat) :
    Nat → List α → List α
  | _, [] => []
  | 0, h :: t => oracle (h :: t)
  | fuel + 1, h :: t =>
      if bs = 0 then oracle (h :: t)
      else oracle ((h :: t).take bs) ++
        shallowGo oracle bs fuel ((h :: t).drop bs)

/-- Modelled from the spec: the ShallowProbe batch ranking of §4.1 —
partition the candidate batch into sequential sub-batches of at most
`bs` candidates, rank each sub-batch independently through the
external ranking oracle, and concatenate the oracle outputs in
sub-batch order.  The selectors module that realises this is not among
the available sources. -/
def shallowProbe {α : Type} (oracle : List α → List α) (bs : Nat)
    (hosts : List α) : List α :=
  shallowGo oracle bs hosts.length hosts

/-- Modelled from the spec: the Scheduler of §4.2/§5 — every candidate
receives exactly one probe invocation and contributes exactly one
terminal `ProbeResult`; the probe's total function type encodes that a
probe never throws on network failure (failures are values of
`Status`).  The selectors module that realises this is not among the
available sources. -/
def runProbes (probe : String → ProbeResult) (candidates : List String) :
    List ProbeResult :=
  candidates.map probe

/-- A concrete probe in which every candidate succeeds. -/
def probeOk : String → ProbeResult := fun u => ⟨u, 5, Status.Success⟩

/-- A concrete probe in which one fixed candidate times out and every
other candidate behaves exactly as under `probeOk`. -/
def probeFlaky : String → ProbeResult := fun u =>
  if u == "http://x.example" then ⟨u, 0, Status.Timeout⟩
  else ⟨u, 5, Status.Success⟩

/-- Embedding of the option defaults declared in
`MirrorSelect._parse_args` (src/mirrorselect/main.py lines 218-220):
the `-t`/`--timeout` option has type int and default 10. -/
def defaultTimeout : Int := 10

/-- Embedding of the option defaults declared in
`MirrorSelect._parse_args` (src/mirrorselect/main.py lines 221-225):
the `-s`/`--servers` option has type int and default 1. -/
def defaultServers : Int := 1

/-- The timeout value the parsed options carry: the command-line value
when one was given, else the declared default. -/
def effectiveTimeout (cli : Option Int) : Int := cli.getD defaultTimeout

/-- The server-count value the parsed options carry: the command-line
value when one was given, else the declared default. -/
def effectiveServers (cli : Option Int) : Int := cli.getD defaultServers

/-- Outcome of a Python code path that either produces a value or
raises IndexError. -/
inductive PyResult (α : Type) where
  | ok : α → PyResult α
  | indexError : PyResult α
deriving DecidableEq

/-- Whether `needle` occurs as a contiguous run inside the character
list (the Python `in` substring test), by plain recursion on the
haystack. -/
def containsAux (needle : List Char) : List Char → Bool
  | [] => needle.isPrefixOf []
  | c :: rest => needle.isPrefixOf (c :: rest) || containsAux needle rest

/-- Embedding of the Python substring test `needle in hay` used on
src/mirrorselect/main.py line 104. -/
def containsSub (hay needle : String) : Bool :=
  containsAux needle.toList hay.toList

/-- Embedding of the target-variable choice in
`MirrorSelect.change_config` (src/mirrorselect/main.py lines 103-109). -/
def mirrorVar (configPath : String) (sync : Bool) : String :=
  if sync then
    (if containsSub configPath "repos.conf" then "sync-uri" else "SYNC")
  else "GENTOO_MIRRORS"

/-- Embedding of the `mirror_string` computation in
`MirrorSelect.change_config` (src/mirrorselect/main.py lines 114-117). -/
def mirror_string (hosts : List String) (out : Bool) (configPath : String)
    (sync : Bool) : String :=
  let var := mirrorVar configPath sync
  if var == "sync-uri" && out then
    var ++ " = " ++ String.intercalate " " hosts
  else
    var ++ "=\"" ++ String.intercalate " " hosts ++ "\""

/-- Observable effect of one `MirrorSelect.change_config` call: either
the process printed a string and exited with the given code (the
`write_to_output` path, src/mirrorselect/main.py lines 127-131), or a
configuration file was written through `write_repos_conf` or
`write_make_conf`. -/
inductive ConfigEffect where
  | exited : Nat → String → ConfigEffect
  | wroteReposConf : String → String → String → ConfigEffect
  | wroteMakeConf : String → String → String → ConfigEffect
deriving DecidableEq

/-- Embedding of `MirrorSelect.change_config`
(src/mirrorselect/main.py lines 94-124).  Line 111 reads `hosts[0]`,
so an empty host list raises IndexError before any branch is taken;
otherwise the `out` flag routes to `write_to_output` (print and exit
with status 0) and the remaining branches write a configuration
file. -/
def change_config (hosts : List String) (out : Bool) (configPath : String)
    (sync : Bool) : PyResult ConfigEffect :=
  match hosts with
  | [] => PyResult.indexError
  | _ :: _ =>
    let var := mirrorVar configPath sync
    let ms := mirror_string hosts out configPath sync
    if out then PyResult.ok (ConfigEffect.exited 0 ms)
    else if var == "sync-uri" then
      PyResult.ok (ConfigEffect.wroteReposConf configPath var
        (String.intercalate " " hosts))
    else PyResult.ok (ConfigEffect.wroteMakeConf configPath var ms)

/-- What the tail of `MirrorSelect.main` does with the selected URL
list: call `change_config`, or print the no-results message. -/
inductive MainAction where
  | changeConfig : List String → Bool → String → Bool → MainAction
  | noResultsMessage : MainAction
deriving DecidableEq

/-- Embedding of the tail of `MirrorSelect.main`
(src/mirrorselect/main.py lines 359-364): a non-empty URL list is
passed (prefixed with the filesystem mirrors) to `change_config`,
while an empty one produces the user-visible "No search results
found" message and no configuration write. -/
def mainDispatch (fsmirrors urls : List String) (out : Bool)
    (configPath : String) (sync : Bool) : MainAction :=
  if urls.length ≠ 0 then
    MainAction.changeConfig (fsmirrors ++ urls) out configPath sync
  else MainAction.noResultsMessage

/-- Embedding of the all-mirrors branch of `MirrorSelect.main`
(src/mirrorselect/main.py lines 352-355): the host URLs are extracted
and sorted ascending; in rsync mode the list is replaced by its first
element, which raises IndexError when the list is empty. -/
def allMirrorsBranch (hosts : List (String × List String)) (rsync : Bool) :
    PyResult (List String) :=
  let urls := List.insertionSort (fun a b : String => strLE a b = true)
    (hosts.map Prod.fst)
  if rsync then
    match urls with
    | [] => PyResult.indexError
    | u :: _ => PyResult.ok [u]
  else PyResult.ok urls

/-- Embedding of `MirrorSelect.main` from the all-mirrors branch to
the end (src/mirrorselect/main.py lines 352-364), threading a possible
IndexError. -/
def mainAllMirrors (hosts : List (String × List String)) (rsync out : Bool)
    (fsmirrors : List String) (configPath : String) : PyResult MainAction :=
  match allMirrorsBranch hosts rsync with
  | PyResult.indexError => PyResult.indexError
  | PyResult.ok urls =>
      PyResult.ok (mainDispatch fsmirrors urls out configPath rsync)

/-! Order-theoretic facts about the embedded comparisons -/

theorem listLE_refl : ∀ as : List Char, listLE as as = true := by
  intro as
  induction as with
  | nil => simp [listLE]
  | cons a as ih => simp [listLE, lt_irrefl, ih]

theorem listLE_total : ∀ as bs : List Char,
    listLE as bs = true ∨ listLE bs as = true := by
  intro as
  induction as with
  | nil => intro bs; exact Or.inl (by simp [listLE])
  | cons a as ih =>
    intro bs
    cases bs with
    | nil => exact Or.inr (by simp [listLE])
    | cons b bs =>
      rcases lt_trichotomy a b with h | h | h
      · exact Or.inl (by simp [listLE, h])
      · subst h
        rcases ih bs with h2 | h2
        · exact Or.inl (by simpa [listLE, lt_irrefl] using h2)
        · exact Or.inr (by simpa [listLE, lt_irrefl] using h2)
      · exact Or.inr (by simp [listLE, h])

theorem listLE_trans : ∀ as bs cs : List Char,
    listLE as bs = true → listLE bs cs = true → listLE as cs = true := by
  intro as
  induction as with
  | nil => intro bs cs _ _; simp [listLE]
  | cons a as ih =>
    intro bs cs h1 h2
    cases bs with
    | nil => simp [listLE] at h1
    | cons b bs =>
      cases cs with
      | nil => simp [listLE] at h2
      | cons c cs =>
        simp only [listLE] at h1 h2 ⊢
        by_cases hab : a < b
        · by_cases hbc : b < c
          · rw [if_pos (lt_trans hab hbc)]
          · by_cases hcb : c < b
            · rw [if_neg hbc, if_pos hcb] at h2
              exact absurd h2 (by simp)
            · have hbc' : b = c := le_antisymm (not_lt.mp hcb) (not_lt.mp hbc)
              rw [if_pos (hbc' ▸ hab)]
        · by_cases hba : b < a
          · rw [if_neg hab, if_pos hba] at h1
            exact absurd h1 (by simp)
          · have hab' : a = b := le_antisymm (not_lt.mp hba) (not_lt.mp hab)
            subst hab'
            rw [if_neg (lt_irrefl a), if_neg (lt_irrefl a)] at h1
            by_cases hac : a < c
            · rw [if_pos hac]
            · by_cases hca : c < a
              · rw [if_neg hac, if_pos hca] at h2
                exact absurd h2 (by simp)
              · rw [if_neg hac, if_neg hca] at h2 ⊢
                exact ih bs cs h1 h2

theorem strLE_refl (a : String) : strLE a a = true := listLE_refl _

theorem strLE_total (a b : String) : strLE a b = true ∨ strLE b a = true :=
  listLE_total _ _

theorem strLE_trans {a b c : String} (h1 : strLE a b = true)
    (h2 : strLE b c = true) : strLE a c = true :=
  listLE_trans _ _ _ h1 h2

theorem rankLE_total (dir : Direction) (a b : ProbeResult) :
    RankLE dir a b ∨ RankLE dir b a := by
  cases dir
  · show (a.metric < b.metric ∨ (a.metric = b.metric ∧ strLE a.url b.url = true))
      ∨ (b.metric < a.metric ∨ (b.metric = a.metric ∧ strLE b.url a.url = true))
    rcases lt_trichotomy a.metric b.metric with h | h | h
    · exact Or.inl (Or.inl h)
    · rcases strLE_total a.url b.url with hu | hu
      · exact Or.inl (Or.inr ⟨h, hu⟩)
      · exact Or.inr (Or.inr ⟨h.symm, hu⟩)
    · exact Or.inr (Or.inl h)
  · show (b.metric < a.metric ∨ (a.metric = b.metric ∧ strLE a.url b.url = true))
      ∨ (a.metric < b.metric ∨ (b.metric = a.metric ∧ strLE b.url a.url = true))
    rcases lt_trichotomy a.metric b.metric with h | h | h
    · exact Or.inr (Or.inl h)
    · rcases strLE_total a.url b.url with hu | hu
      · exact Or.inl (Or.inr ⟨h, hu⟩)
      · exact Or.inr (Or.inr ⟨h.symm, hu⟩)
    · exact Or.inl (Or.inl h)

theorem rankLE_trans (dir : Direction) {a b c : ProbeResult}
    (hab : RankLE dir a b) (hbc : RankLE dir b c) : RankLE dir a c := by
  cases dir
  · show a.metric < c.metric ∨ (a.metric = c.metric ∧ strLE a.url c.url = true)
    rcases hab with h1 | ⟨e1, u1⟩ <;> rcases hbc with h2 | ⟨e2, u2⟩
    · exact Or.inl (h1.trans h2)
    · exact Or.inl (by omega)
    · exact Or.inl (by omega)
    · exact Or.inr ⟨by omega, strLE_trans u1 u2⟩
  · show c.metric < a.metric ∨ (a.metric = c.metric ∧ strLE a.url c.url = true)
    rcases hab with h1 | ⟨e1, u1⟩ <;> rcases hbc with h2 | ⟨e2, u2⟩
    · exact Or.inl (h2.trans h1)
    · exact Or.inl (by omega)
    · exact Or.inl (by omega)
    · exact Or.inr ⟨by omega, strLE_trans u1 u2⟩

/-! Facts about the Ranker/Selector -/

theorem isSuccess_eq_true {s : Status} (h : s.isSuccess = true) :
    s = Status.Success := by
  cases s <;> simp_all [Status.isSuccess]

theorem select_none_eq (results : List ProbeResult) (dir : Direction) :
    select results dir none = List.insertionSort (RankLE dir)
      (results.filter (fun r => r.status.isSuccess)) := rfl

theorem select_some_eq (results : List ProbeResult) (dir : Direction) (n : Nat) :
    select results dir (some n) = (select results dir none).take n := rfl

theorem sorted_select (results : List ProbeResult) (dir : Direction)
    (count : Option Nat) : List.Sorted (RankLE dir) (select results dir count) := by
  haveI : IsTotal ProbeResult (RankLE dir) := ⟨rankLE_total dir⟩
  haveI : IsTrans ProbeResult (RankLE dir) :=
    ⟨fun _ _ _ h1 h2 => rankLE_trans dir h1 h2⟩
  cases count with
  | none =>
    rw [select_none_eq]
    exact List.sorted_insertionSort _ _
  | some n =>
    rw [select_some_eq]
    exact List.Pairwise.sublist (List.take_sublist _ _)
      (by rw [select_none_eq]; exact List.sorted_insertionSort _ _)

theorem select_perm (results : List ProbeResult) (dir : Direction) :
    List.Perm (select results dir none)
      (results.filter (fun r => r.status.isSuccess)) :=
  List.perm_insertionSort _ _

theorem mem_select {results : List ProbeResult} {dir : Direction}
    {count : Option Nat} {r : ProbeResult} (h : r ∈ select results dir count) :
    r.status = Status.Success := by
  have hm : r ∈ select results dir none := by
    cases count with
    | none => exact h
    | some n => exact List.take_subset _ _ (by rw [← select_some_eq]; exact h)
  rw [select_none_eq] at hm
  have hf : r ∈ results.filter (fun r => r.status.isSuccess) :=
    (List.mem_insertionSort _).mp hm
  exact isSuccess_eq_true (List.mem_filter.mp hf).2

/-! The claims -/

/-- C1: for every ProbeResult collection, strategy direction and
count, `select` returns exactly the Success-status results sorted by
metric in the strategy direction with exact metric ties broken by
ascending URL comparison (the full ranking is a permutation of the
Success subset and is sorted under `RankLE`), truncated to the first
`count` entries, and the full ranked set when `count` is unspecified;
on the spec's five-candidate example with three successes of
throughput metrics 10, 30 and 20 and requestedCount 2, the result is
the URLs with metrics 30 then 20, in that order. -/
theorem c1_select_contract :
    (∀ (results : List ProbeResult) (dir : Direction) (count : Option Nat)
        (r : ProbeResult), r ∈ select results dir count →
        r.status = Status.Success) ∧
    (∀ (results : List ProbeResult) (dir : Direction),
        List.Perm (select results dir none)
          (results.filter (fun r => r.status.isSuccess))) ∧
    (∀ (results : List ProbeResult) (dir : Direction),
        List.Sorted (RankLE dir) (select results dir none)) ∧
    (∀ (results : List ProbeResult) (dir : Direction) (n : Nat),
        select results dir (some n) = (select results dir none).take n) ∧
    (select exampleResults Direction.descending (some 2)).map ProbeResult.url
      = ["http://c.example", "http://e.example"] := by
  refine ⟨?_, ?_, ?_, ?_, by decide⟩
  · intro results dir count r h
    exact mem_select h
  · intro results dir
    exact select_perm results dir
  · intro results dir
    exact sorted_select results dir none
  · intro results dir n
    rfl

theorem c1_select_contract_witness :
    (⟨"http://c.example", 30, Status.Success⟩ : ProbeResult).status
      = Status.Success :=
  c1_select_contract.1 exampleResults Direction.descending (some 2)
    ⟨"http://c.example", 30, Status.Success⟩ (by decide)

/-- C2: for every ProbeResult collection whose candidate URLs are
pairwise distinct (a CandidateSet is a set of mirror records, one
probe result per candidate), every record selected had a Success
result, the selection's length is `min requestedCount successes` —
hence at most the requested count, and equal to the number of
successes when fewer successes exist — and the selection contains no
duplicate URLs. -/
theorem c2_invariants (results : List ProbeResult) (dir : Direction) (n : Nat)
    (hnodup : (results.map ProbeResult.url).Nodup) :
    (∀ r ∈ select results dir (some n), r.status = Status.Success) ∧
    (select results dir (some n)).length
      = min n (results.filter (fun r => r.status.isSuccess)).length ∧
    (select results dir (some n)).length ≤ n ∧
    ((select results dir (some n)).map ProbeResult.url).Nodup := by
  have hlen : (select results dir (some n)).length
      = min n (results.filter (fun r => r.status.isSuccess)).length := by
    rw [select_some_eq, List.length_take, (select_perm results dir).length_eq]
  refine ⟨fun r h => mem_select h, hlen, ?_, ?_⟩
  · rw [hlen]
    exact min_le_left _ _
  · have h1 : (results.filter (fun r => r.status.isSuccess)).Sublist results :=
      List.filter_sublist _
    have h2 : ((results.filter (fun r => r.status.isSuccess)).map
        ProbeResult.url).Nodup :=
      List.Nodup.sublist (List.Sublist.map ProbeResult.url h1) hnodup
    have h3 : ((select results dir none).map ProbeResult.url).Nodup :=
      (((select_perm results dir).map ProbeResult.url).nodup_iff).mpr h2
    have h4 : ((select results dir (some n)).map ProbeResult.url).Sublist
        ((select results dir none).map ProbeResult.url) := by
      rw [select_some_eq]
      exact List.Sublist.map ProbeResult.url (List.take_sublist _ _)
    exact List.Nodup.sublist h4 h3

theorem c2_invariants_witness :
    (select exampleResults Direction.descending (some 2)).length ≤ 2 :=
  (c2_invariants exampleResults Direction.descending 2 (by decide)).2.2.1

/-- C3: when no probe succeeds (in particular when nothing remains to
probe), `select` returns the empty ranked list, and the tail of
`MirrorSelect.main` takes the branch that prints the user-visible "No
search results found" message — the `MainAction` is
`noResultsMessage`, not a `changeConfig`, so no configuration write is
performed and no exception is raised. -/
theorem c3_zero_success (results : List ProbeResult) (dir : Direction)
    (count : Option Nat) (fsmirrors : List String) (out : Bool)
    (configPath : String) (sync : Bool)
    (hfail : ∀ r ∈ results, r.status ≠ Status.Success) :
    select results dir count = [] ∧
    mainDispatch fsmirrors
      ((select results dir count).map ProbeResult.url) out configPath sync
      = MainAction.noResultsMessage := by
  have hempty : results.filter (fun r => r.status.isSuccess) = [] := by
    rw [List.filter_eq_nil_iff]
    intro r hr h
    exact hfail r hr (isSuccess_eq_true h)
  have hsel : select results dir count = [] := by
    cases count with
    | none => rw [select_none_eq, hempty]; rfl
    | some n => rw [select_some_eq, select_none_eq, hempty]; simp
  refine ⟨hsel, ?_⟩
  rw [hsel]
  rfl

theorem c3_zero_success_witness :
    select ([⟨"http://u.example", 0, Status.Timeout⟩,
        ⟨"http://v.example", 0, Status.Unreachable⟩] : List ProbeResult)
      Direction.ascending (some 1) = [] ∧
    mainDispatch []
      ((select ([⟨"http://u.example", 0, Status.Timeout⟩,
          ⟨"http://v.example", 0, Status.Unreachable⟩] : List ProbeResult)
        Direction.ascending (some 1)).map ProbeResult.url)
      false "/etc/portage/make.conf" false = MainAction.noResultsMessage :=
  c3_zero_success _ Direction.ascending (some 1) [] false
    "/etc/portage/make.conf" false (by decide)

theorem shallowGo_eq {α : Type} (oracle : List α → List α) (bs : Nat) :
    ∀ (fuel : Nat) (hs : List α),
      shallowGo oracle bs fuel hs = ((blocksGo bs fuel hs).map oracle).flatten := by
  intro fuel
  induction fuel with
  | zero => intro hs; cases hs <;> simp [shallowGo, blocksGo]
  | succ fuel ih =>
    intro hs
    cases hs with
    | nil => simp [shallowGo, blocksGo]
    | cons h t =>
      by_cases hbs : bs = 0
      · simp [shallowGo, blocksGo, hbs]
      · simp [shallowGo, blocksGo, hbs, ih]

/-- C4: the ShallowProbe batch is partitioned into sequential
sub-batches of at most `blockSize` candidates, each sub-batch is
independently ranked by one external oracle call, and the outputs are
concatenated in sub-batch order (`shallowProbe` equals the flattening
of the oracle applied block by block); with 25 candidates and
blockSize 10 there are exactly 3 oracle sub-batch calls, on the blocks
0-9, 10-19 and 20-24 in that order. -/
theorem c4_shallow_blocksplit :
    (∀ (α : Type) (oracle : List α → List α) (bs : Nat) (hosts : List α),
        shallowProbe oracle bs hosts = ((blocks bs hosts).map oracle).flatten) ∧
    (blocks 10 (List.range 25)).length = 3 ∧
    blocks 10 (List.range 25) =
      [[0, 1, 2, 3, 4, 5, 6, 7, 8, 9],
       [10, 11, 12, 13, 14, 15, 16, 17, 18, 19],
       [20, 21, 22, 23, 24]] := by
  refine ⟨?_, by decide, by decide⟩
  intro α oracle bs hosts
  exact shallowGo_eq oracle bs hosts.length hosts

/-- C5: the Ranker is deterministic (the same ProbeResult collection
always yields the same RankedList) and idempotent (re-ranking its own
output leaves it unchanged), and in every selection any two entries
with identical metric appear in ascending lexicographic URL order. -/
theorem c5_ranker_deterministic :
    (∀ (results : List ProbeResult) (dir : Direction) (count : Option Nat),
        select results dir count = select results dir count) ∧
    (∀ (results : List ProbeResult) (dir : Direction),
        select (select results dir none) dir none = select results dir none) ∧
    (∀ (results : List ProbeResult) (dir : Direction) (count : Option Nat),
        (select results dir count).Pairwise
          (fun a b => a.metric = b.metric → strLE a.url b.url = true)) := by
  refine ⟨fun _ _ _ => rfl, ?_, ?_⟩
  · intro results dir
    have hall : ∀ r ∈ select results dir none, r.status.isSuccess = true := by
      intro r h
      rw [mem_select h]
      rfl
    rw [select_none_eq (select results dir none) dir,
      List.filter_eq_self.mpr hall]
    exact List.Sorted.insertionSort_eq (sorted_select results dir none)
  · intro results dir count
    refine (sorted_select results dir count).imp ?_
    intro a b hab
    cases dir
    · intro hmet
      rcases hab with h | ⟨_, hu⟩
      · exact absurd (hmet ▸ h) (lt_irrefl _)
      · exact hu
    · intro hmet
      rcases hab with h | ⟨_, hu⟩
      · exact absurd (hmet ▸ h) (lt_irrefl _)
      · exact hu

theorem c5_ranker_deterministic_witness :
    select (select exampleResults Direction.descending none)
      Direction.descending none
      = select exampleResults Direction.descending none :=
  c5_ranker_deterministic.2.1 exampleResults Direction.descending

/-- C6: in every selection run each candidate receives exactly one
probe attempt — the result list has one entry per candidate, the i-th
result being that candidate's single terminal `ProbeResult` (failures
are encoded in its status: the probe is a total function, so it never
throws) — and one candidate's failure or timeout never affects any
other candidate: two probe behaviours that agree everywhere except at
one candidate produce identical results at every other position. -/
theorem c6_scheduler (probe : String → ProbeResult) (cands : List String) :
    (runProbes probe cands).length = cands.length ∧
    (∀ i : Nat, (runProbes probe cands)[i]? = (cands[i]?).map probe) ∧
    (∀ (probe2 : String → ProbeResult) (c : String),
        (∀ x, x ≠ c → probe x = probe2 x) →
        ∀ i : Nat, cands[i]? ≠ some c →
          (runProbes probe cands)[i]? = (runProbes probe2 cands)[i]?) := by
  refine ⟨by simp [runProbes], ?_, ?_⟩
  · intro i
    simp [runProbes, List.getElem?_map]
  · intro probe2 c hagree i hne
    simp only [runProbes, List.getElem?_map]
    cases hc : cands[i]? with
    | none => rfl
    | some x =>
      rw [hc] at hne
      have hx : x ≠ c := by
        intro he
        exact hne (by rw [he])
      simp [hagree x hx]

theorem c6_scheduler_witness :
    (runProbes probeOk ["http://m1.example", "http://m2.example"])[0]?
      = (runProbes probeFlaky ["http://m1.example", "http://m2.example"])[0]? :=
  (c6_scheduler probeOk ["http://m1.example", "http://m2.example"]).2.2
    probeFlaky "http://x.example"
    (fun x hx => by simp [probeOk, probeFlaky, hx]) 0 (by decide)

/-- C7: when the command line does not specify them, the deep-mode
per-probe timeout declared in `_parse_args` defaults to 10 and the
requested server count defaults to 1; a given command-line value is
taken as is. -/
theorem c7_defaults :
    effectiveTimeout none = 10 ∧ effectiveServers none = 1 ∧
    (∀ t : Int, effectiveTimeout (some t) = t) ∧
    (∀ s : Int, effectiveServers (some s) = s) :=
  ⟨rfl, rfl, fun _ => rfl, fun _ => rfl⟩

/-- C8: in all-mirrors mode `MirrorSelect.main` outputs the extracted
host URLs sorted in ascending lexicographic order (the produced list
is sorted under the Python string comparison and is a permutation of
the extracted URLs); when rsync mode is also active it keeps exactly
one URL, which occurs among the extracted URLs and is lexicographically
least among them. -/
theorem c8_all_mirrors (hosts : List (String × List String))
    (urls : List String) (u : String) (rest : List String) :
    (allMirrorsBranch hosts false = PyResult.ok urls →
        List.Sorted (fun a b : String => strLE a b = true) urls ∧
        List.Perm urls (hosts.map Prod.fst)) ∧
    (allMirrorsBranch hosts true = PyResult.ok (u :: rest) →
        rest = [] ∧ u ∈ hosts.map Prod.fst ∧
        ∀ v ∈ hosts.map Prod.fst, strLE u v = true) := by
  haveI : IsTotal String (fun a b => strLE a b = true) := ⟨strLE_total⟩
  haveI : IsTrans String (fun a b => strLE a b = true) :=
    ⟨fun _ _ _ h1 h2 => strLE_trans h1 h2⟩
  constructor
  · intro h
    simp only [allMirrorsBranch, Bool.false_eq_true, if_false,
      PyResult.ok.injEq] at h
    subst h
    exact ⟨List.sorted_insertionSort _ _, List.perm_insertionSort _ _⟩
  · intro h
    cases hs : List.insertionSort (fun a b : String => strLE a b = true)
        (hosts.map Prod.fst) with
    | nil => simp [allMirrorsBranch, hs] at h
    | cons w ws =>
      simp only [allMirrorsBranch, if_true, hs, PyResult.ok.injEq,
        List.cons.injEq] at h
      obtain ⟨hw, hrest⟩ := h
      subst hw
      refine ⟨hrest.symm, ?_, ?_⟩
      · have : w ∈ List.insertionSort (fun a b : String => strLE a b = true)
            (hosts.map Prod.fst) := by
          rw [hs]
          exact List.mem_cons_self _ _
        exact (List.mem_insertionSort _).mp this
      · intro v hv
        have hv' : v ∈ List.insertionSort (fun a b : String => strLE a b = true)
            (hosts.map Prod.fst) := (List.mem_insertionSort _).mpr hv
        rw [hs] at hv'
        rcases List.mem_cons.mp hv' with h | h
        · rw [h]
          exact strLE_refl w
        · have hsorted := List.sorted_insertionSort
            (fun a b : String => strLE a b = true) (hosts.map Prod.fst)
          rw [hs] at hsorted
          exact List.rel_of_sorted_cons hsorted v h

theorem c8_all_mirrors_witness :
    "rsync://a.example" ∈
      ([("rsync://b.example", ["deep"]), ("rsync://a.example", [])] :
        List (String × List String)).map Prod.fst :=
  ((c8_all_mirrors [("rsync://b.example", ["deep"]), ("rsync://a.example", [])]
      [] "rsync://a.example" []).2 (by decide)).2.1

/-- C9: for every non-empty host list, `change_config` called with
`out = True` reaches `write_to_output`, which prints the mirror
variable assignment and exits the process with status 0 — it never
returns normally and never takes a branch that writes a configuration
file. -/
theorem c9_output_mode (hosts : List String) (configPath : String)
    (sync : Bool) (h : hosts ≠ []) :
    change_config hosts true configPath sync
      = PyResult.ok (ConfigEffect.exited 0
          (mirror_string hosts true configPath sync)) := by
  cases hosts with
  | nil => exact absurd rfl h
  | cons a t => simp [change_config]

theorem c9_output_mode_witness :
    change_config ["http://a.example"] true "/etc/portage/make.conf" false
      = PyResult.ok (ConfigEffect.exited 0
          "GENTOO_MIRRORS=\"http://a.example\"") :=
  (c9_output_mode ["http://a.example"] "/etc/portage/make.conf" false
    (by decide)).trans (by decide)

/-- C10: when all-mirrors mode and rsync mode are both active and the
extracted host list is empty, `MirrorSelect.main` raises IndexError
from indexing the empty sorted URL list (line 355), and in particular
never reaches the no-results message path. -/
theorem c10_empty_rsync_all_mirrors :
    (∀ (out : Bool) (fsmirrors : List String) (configPath : String),
        mainAllMirrors [] true out fsmirrors configPath
          = PyResult.indexError) ∧
    (∀ (out : Bool) (fsmirrors : List String) (configPath : String),
        mainAllMirrors [] true out fsmirrors configPath
          ≠ PyResult.ok MainAction.noResultsMessage) := by
  constructor
  · intro out fsm path
    rfl
  · intro out fsm path h
    rw [(rfl : mainAllMirrors [] true out fsm path = PyResult.indexError)] at h
    exact PyResult.noConfusion h

theorem c10_empty_rsync_all_mirrors_witness :
    mainAllMirrors [] true false [] "/etc/portage/make.conf"
      = PyResult.indexError :=
  c10_empty_rsync_all_mirrors.1 false [] "/etc/portage/make.conf"

end Mirrorselect
